import Mathlib

/-!
Verification of the MessageU client protocol engine (C++ sources under
src/Client/Project2) against its natural-language specification.

The development is a shallow embedding: the relevant C++ functions are
translated into executable Lean definitions.  Byte buffers are `List Nat`
(each element a byte value), C++ `std::string` values are Lean `String`s,
and the in-memory peer registry (`std::vector<ClientInfo>`) is a
`List ClientInfo`.  Loops over byte buffers are written with an explicit
fuel parameter so the definitions stay kernel-computable; every loop
consumes at least one byte per iteration, so `bytes.length` is always a
sufficient fuel and the entry-point wrappers pass exactly that.

Cryptographic primitives (CryptoPP RSA/AES) and file I/O are treated as
library contracts: they enter the model as function parameters
(`PendingEnv`, `SendEnv`).  A decryption that throws a CryptoPP exception
is modelled as `none`.
-/

set_option maxRecDepth 16000

namespace MessageU

/-! ## Bytes and little-endian integers (protocol.h: all wire integers are
little-endian, structures packed with no padding) -/

/-- Little-endian decode of (up to) four bytes, as read out of a packed
`csize_t`/`messageID_t` field. Missing bytes read as zero. -/
def decodeLe32 (l : List Nat) : Nat :=
  l.getD 0 0 + 256 * l.getD 1 0 + 65536 * l.getD 2 0 + 16777216 * l.getD 3 0

/-- Little-endian encode of a 32-bit value into four bytes. -/
def le32 (n : Nat) : List Nat :=
  [n % 256, n / 256 % 256, n / 65536 % 256, n / 16777216 % 256]

/-- View a byte list as a C++ `std::string` (one char per byte). -/
def stringOfBytes (l : List Nat) : String :=
  ⟨l.map Char.ofNat⟩

/-- Bytes of a C++ `std::string` given by a Lean string literal. -/
def bytesOfString (s : String) : List Nat :=
  s.data.map Char.toNat

/-! ## Data model (protocol.h, MessageEngine.h) -/

/-- ResponseHeaderStruct: `version:u8 | code:u16 | payload_size:u32`,
7 bytes packed. -/
structure ResponseHeader where
  version : Nat
  code : Nat
  payloadSize : Nat
deriving DecidableEq, Repr

/-- A server response as delivered by the transport: the code of the
7-byte header together with the payload bytes.  The header's
`payload_size` field of a well-formed response equals the number of
payload bytes actually sent. -/
structure ServerResponse where
  code : Nat
  payload : List Nat
deriving DecidableEq, Repr

/-- The response header of a `ServerResponse` (protocol version 2). -/
def ServerResponse.header (r : ServerResponse) : ResponseHeader :=
  ⟨2, r.code, r.payload.length⟩

/-- ClientInfo (MessageEngine.h): one peer-registry entry.  `id` is the
16-byte UUID, the two `...Set` booleans mirror the `publicKeySet` /
`symmetricKeySet` flags. -/
structure ClientInfo where
  id : List Nat
  username : String
  publicKey : List Nat := []
  symmetricKey : List Nat := []
  publicKeySet : Bool := false
  symmetricKeySet : Bool := false
deriving DecidableEq, Repr

/-- MessageData (MessageEngine.h): a decoded incoming message. -/
structure MessageData where
  username : String
  content : String
deriving DecidableEq, Repr

/-! ## Registry helpers (MessageEngine.cpp lines 476-558) -/

/-- MessageEngine::findClientById — linear search, first match. -/
def findClientById (reg : List ClientInfo) (ident : List Nat) : Option ClientInfo :=
  reg.find? (fun c => c.id == ident)

/-- MessageEngine::findClientByUsername — linear search, first match. -/
def findClientByUsername (reg : List ClientInfo) (username : String) : Option ClientInfo :=
  reg.find? (fun c => c.username == username)

/-- MessageEngine::setClientPublicKey — update the first entry whose id
matches; returns whether a matching entry was found, plus the updated
registry (the C++ mutates `m_peerRegistry` in place). -/
def setClientPublicKey (reg : List ClientInfo) (ident : List Nat) (pk : List Nat) :
    Bool × List ClientInfo :=
  match reg with
  | [] => (false, [])
  | c :: rest =>
    if c.id = ident then
      (true, { c with publicKey := pk, publicKeySet := true } :: rest)
    else
      let r := setClientPublicKey rest ident pk
      (r.1, c :: r.2)

/-- MessageEngine::setClientSymmetricKey — same shape as
`setClientPublicKey` for the symmetric key. -/
def setClientSymmetricKey (reg : List ClientInfo) (ident : List Nat) (sk : List Nat) :
    Bool × List ClientInfo :=
  match reg with
  | [] => (false, [])
  | c :: rest =>
    if c.id = ident then
      (true, { c with symmetricKey := sk, symmetricKeySet := true } :: rest)
    else
      let r := setClientSymmetricKey rest ident sk
      (r.1, c :: r.2)

/-! ## Header validation (MessageEngine::validateHeader, lines 311-363)

The fixed payload sizes are the `sizeof` differences of the packed
structs in protocol.h: 2100 → 23-7 = 16, 2102 → 183-7 = 176,
2103 → 27-7 = 20. -/

/-- MessageEngine::validateHeader. -/
def validateHeader (h : ResponseHeader) (expectedCode : Nat) : Bool :=
  if h.code = 9000 then false
  else if h.code ≠ expectedCode then false
  else if h.code = 2100 then h.payloadSize == 16
  else if h.code = 2102 then h.payloadSize == 176
  else if h.code = 2103 then h.payloadSize == 20
  else true

/-- MessageEngine::receiveUnknownPayload, reduced to its codec content:
the transport delivers the response bytes (connection management and the
1024-byte chunk reassembly are below this model's level of abstraction);
the header is validated against the expected code and, on success, the
`payload_size` payload bytes are returned.  An empty payload yields
`some []` (the C++ returns `true` with a null payload of size 0). -/
def receiveUnknownPayload (expectedCode : Nat) (r : ServerResponse) : Option (List Nat) :=
  if validateHeader r.header expectedCode then some r.payload else none

/-! ## Clients-list request (MessageEngine::requestClientsList, lines 626-682)

Each payload record is a packed `ClientIdStruct | ClientNameStruct`,
16 + 255 = 271 bytes.  The C++ clears the registry and then pushes one
entry per record, stopping with an error if a record is incomplete; on
that error the registry keeps the records parsed so far. -/

/-- One loop iteration parses 271 bytes, so `bytes.length` iterations of
fuel always suffice.  Returns the success flag together with the registry
contents produced (the C++ pushes into the already-cleared
`m_peerRegistry`; on a boundary error the entries pushed so far remain). -/
def parseClientsLoopF : Nat → List Nat → Bool × List ClientInfo
  | _, [] => (true, [])
  | 0, _ => (false, [])
  | fuel + 1, bytes =>
    if bytes.length < 271 then (false, [])
    else
      let c : ClientInfo :=
        { id := bytes.take 16
          username := stringOfBytes (((bytes.drop 16).take 255).takeWhile (fun b => b != 0))
          publicKey := []
          symmetricKey := []
          publicKeySet := false
          symmetricKeySet := false }
      let r := parseClientsLoopF fuel (bytes.drop 271)
      (r.1, c :: r.2)

/-- The record-parsing loop of `requestClientsList`. -/
def parseClientsLoop (bytes : List Nat) : Bool × List ClientInfo :=
  parseClientsLoopF bytes.length bytes

/-- MessageEngine::requestClientsList.  `localId` is `m_localUser.id`; it
is placed in the 601 request header and plays no role in response
handling.  Returns the success flag and the peer registry after the call
(on a receive/validation failure the registry is left unchanged; once the
payload is received the registry is cleared and rebuilt from the
records). -/
def requestClientsList (localId : List Nat) (reg : List ClientInfo)
    (r : ServerResponse) : Bool × List ClientInfo :=
  match receiveUnknownPayload 2101 r with
  | none => (false, reg)
  | some payload => parseClientsLoop payload

/-! ## Public-key request (MessageEngine::requestClientPublicKey, lines 691-752) -/

/-- MessageEngine::requestClientPublicKey.  `localId` only enters the 602
request header.  The response payload must be
`sizeof(ClientIdStruct) + sizeof(PublicKeyStruct)` = 176 bytes: 16 bytes
of echoed client id followed by the 160-byte public key. -/
def requestClientPublicKey (localId : List Nat) (reg : List ClientInfo)
    (username : String) (r : ServerResponse) : Bool × List ClientInfo :=
  match findClientByUsername reg username with
  | none => (false, reg)
  | some c =>
    match receiveUnknownPayload 2102 r with
    | none => (false, reg)
    | some payload =>
      if payload.length ≠ 176 then (false, reg)
      else
        let respId := payload.take 16
        let pk := (payload.drop 16).take 160
        if respId ≠ c.id then (false, reg)
        else
          let s := setClientPublicKey reg c.id pk
          if s.1 then (true, s.2) else (false, reg)

/-! ## Pending-messages retrieval (MessageEngine::retrievePendingMessages,
lines 761-913)

Each record starts with a packed PendingMessageStruct
`from_ident[16] | message_id:u32 | msg_type:u8 | content_size:u32`
(25 bytes) followed by `content_size` content bytes. -/

/-- Library contract parameters used while processing pending messages.
`rsaDecrypt` is `RSAPrivateWrapper::decrypt` with the local private key
(`none` models a thrown CryptoPP exception, which the C++ does not catch,
so it aborts the whole call); `aesDecrypt` likewise for
`AESWrapper::decrypt` with the given key; `writeFileOk` is the result of
`ConfigManager::writeFileComplete`; `tempDir`/`timestamp` feed the file
path built for MSG_FILE records. -/
structure PendingEnv where
  rsaDecrypt : List Nat → Option (List Nat)
  aesDecrypt : List Nat → List Nat → Option (List Nat)
  writeFileOk : Bool
  tempDir : String
  timestamp : String

/-- Error text of MessageEngine.cpp line 798. -/
def incompleteHeaderErr : String := "Invalid pending messages response: incomplete header"

/-- Error text of MessageEngine.cpp line 807. -/
def contentExceedsErr : String := "Invalid pending messages response: message content exceeds payload"

/-- Error text of MessageEngine.cpp line 817 (fatal: the whole call fails). -/
def unknownSenderErr (msgId : Nat) : String :=
  "Unknown source client for message #" ++ Nat.repr msgId

/-- Error line of MessageEngine.cpp line 845 (non-fatal: record skipped). -/
def pkMissingErr (msgId : Nat) : String :=
  "Message #" ++ Nat.repr msgId ++ ": Public key not available"

/-- Error line of MessageEngine.cpp line 867 (non-fatal: record skipped). -/
def symKeyMissingErr (msgId : Nat) : String :=
  "Message #" ++ Nat.repr msgId ++ ": Symmetric key not available"

/-- Error line of MessageEngine.cpp line 885 (non-fatal: record skipped). -/
def saveFileErr (msgId : Nat) : String :=
  "Message #" ++ Nat.repr msgId ++ ": Failed to save file"

/-- Uncaught CryptoPP exception out of `_cryptoEngine->decrypt` (line 851). -/
def rsaDecryptExc : String := "uncaught CryptoPP exception in RSAPrivateWrapper::decrypt"

/-- Uncaught CryptoPP exception out of `aes.decrypt` (line 874). -/
def aesDecryptExc : String := "uncaught CryptoPP exception in AESWrapper::decrypt"

/-- One iteration of the `retrievePendingMessages` parse loop: consumes
one record off the front of `bytes`.  Result on success: the message to
push (if `addToQueue` remained true), the error lines appended to the
error buffer, the registry after the iteration, and the remaining bytes.
`Except.error` is a fatal outcome: either a malformed-response early
`return false` or an uncaught decryption exception. -/
def pendingStep (env : PendingEnv) (reg : List ClientInfo) (bytes : List Nat) :
    Except String (Option MessageData × List String × List ClientInfo × List Nat) :=
  if bytes.length < 25 then .error incompleteHeaderErr
  else if bytes.length < 25 + decodeLe32 ((bytes.drop 21).take 4) then .error contentExceedsErr
  else
    match findClientById reg (bytes.take 16) with
    | none => .error (unknownSenderErr (decodeLe32 ((bytes.drop 16).take 4)))
    | some src =>
      let msgId := decodeLe32 ((bytes.drop 16).take 4)
      let msize := decodeLe32 ((bytes.drop 21).take 4)
      let content := (bytes.drop 25).take msize
      let rest := bytes.drop (25 + msize)
      if (bytes.drop 20).headD 0 = 1 then
        -- MSG_SYMMETRIC_KEY_REQUEST
        .ok (some ⟨src.username, "Symmetric key request"⟩, [], reg, rest)
      else if (bytes.drop 20).headD 0 = 2 then
        -- MSG_SYMMETRIC_KEY_SEND
        if src.publicKeySet = false then
          .ok (none, [pkMissingErr msgId], reg, rest)
        else
          match env.rsaDecrypt content with
          | none => .error rsaDecryptExc
          | some d =>
            -- memcpy copies SYMMETRIC_KEY_LENGTH = 16 bytes of the
            -- decrypted string, with no check of its length
            .ok (some ⟨src.username, "Symmetric key received"⟩, [],
              (setClientSymmetricKey reg (bytes.take 16) (d.take 16)).2, rest)
      else if (bytes.drop 20).headD 0 = 3 ∨ (bytes.drop 20).headD 0 = 4 then
        -- MSG_TEXT / MSG_FILE
        if src.symmetricKeySet = false then
          .ok (none, [symKeyMissingErr msgId], reg, rest)
        else
          match env.aesDecrypt src.symmetricKey content with
          | none => .error aesDecryptExc
          | some d =>
            if (bytes.drop 20).headD 0 = 4 then
              let path := env.tempDir ++ "\\MessageU\\" ++ src.username ++ "_" ++ env.timestamp
              if env.writeFileOk then .ok (some ⟨src.username, path⟩, [], reg, rest)
              else .ok (none, [saveFileErr msgId], reg, rest)
            else
              .ok (some ⟨src.username, stringOfBytes d⟩, [], reg, rest)
      else
        -- unknown type: the C++ sets content to "" and leaves
        -- addToQueue true, so the empty message is still pushed
        .ok (some ⟨src.username, ""⟩, [], reg, rest)

/-- The `retrievePendingMessages` parse loop.  Each iteration consumes at
least 25 bytes, so `bytes.length` fuel always suffices; the fuel-exhausted
arm is unreachable from the entry point below. -/
def processPendingF (env : PendingEnv) :
    Nat → List ClientInfo → List Nat →
    Except String (List MessageData × List String × List ClientInfo)
  | _, reg, [] => .ok ([], [], reg)
  | 0, _, _ => .error "loop fuel exhausted"
  | fuel + 1, reg, bytes =>
    match pendingStep env reg bytes with
    | .error e => .error e
    | .ok (mopt, errs, reg2, rest) =>
      match processPendingF env fuel reg2 rest with
      | .error e => .error e
      | .ok (ms, errs2, reg3) => .ok (mopt.elim ms (· :: ms), errs ++ errs2, reg3)

/-- The parse phase of `retrievePendingMessages`, applied to the received
payload. -/
def processPending (env : PendingEnv) (reg : List ClientInfo) (bytes : List Nat) :
    Except String (List MessageData × List String × List ClientInfo) :=
  processPendingF env bytes.length reg bytes

/-- MessageEngine::retrievePendingMessages.  On success the result is the
message list delivered to the caller (in server order), the non-fatal
error lines accumulated in `m_errorBuffer`, and the registry after the
call. -/
def retrievePendingMessages (env : PendingEnv) (reg : List ClientInfo)
    (r : ServerResponse) :
    Except String (List MessageData × List String × List ClientInfo) :=
  match receiveUnknownPayload 2104 r with
  | none => .error "Invalid response from server"
  | some payload => processPending env reg payload

/-- Builder for one well-formed pending record, used to state theorems
about concrete payloads: `from_ident[16] | message_id:u32 | msg_type:u8 |
content_size:u32 | content`. -/
def mkPendingRecord (senderId : List Nat) (msgId : Nat) (mtype : Nat)
    (content : List Nat) : List Nat :=
  senderId ++ le32 msgId ++ [mtype] ++ le32 content.length ++ content

/-! ## Transport send (NetworkConnection::sendData, lines 237-272)

The loop copies `min(remaining, 1024)` input bytes into a zero-initialised
1024-byte buffer and then writes the WHOLE buffer
(`boost::asio::buffer(temporaryBuffer, DEFAULT_PACKET_SIZE)`), so every
chunk put on the wire is exactly 1024 bytes.  The model follows the
little-endian-host path, on which `convertEndianness` is not applied.
`boost::asio::write` on success returns the full buffer size, so the
position advances by 1024 each iteration. -/

/-- The send loop; one iteration per 1024-byte window, so `bytes.length`
fuel suffices (each iteration drops at least one byte). -/
def sendChunksF : Nat → List Nat → List Nat
  | 0, _ => []
  | fuel + 1, bytes =>
    if bytes = [] then []
    else
      (bytes.take 1024 ++ List.replicate (1024 - bytes.length) 0) ++
        sendChunksF fuel (bytes.drop 1024)

/-- NetworkConnection::sendData: `none` models the `return false` on an
empty buffer (or missing socket); on success the result is the byte
sequence actually written to the socket. -/
def sendData (bytes : List Nat) : Option (List Nat) :=
  if bytes = [] then none else some (sendChunksF bytes.length bytes)

/-! ## Message sending (MessageEngine::sendMessage, lines 924-1092) -/

/-- MessageTypeEnum values (protocol.h). -/
def MSG_SYMMETRIC_KEY_REQUEST : Nat := 1

/-- MessageTypeEnum: symmetric key encrypted with the destination's public key. -/
def MSG_SYMMETRIC_KEY_SEND : Nat := 2

/-- MessageTypeEnum: text message encrypted with the symmetric key. -/
def MSG_TEXT : Nat := 3

/-- MessageTypeEnum: file content encrypted with the symmetric key. -/
def MSG_FILE : Nat := 4

/-- Library contracts for `sendMessage`: `aesKey` is the fresh key from
`AESWrapper()`'s RNG, `rsaEncrypt pub m` is `RSAPublicWrapper::encrypt`,
`aesEncrypt key m` is `AESWrapper::encrypt`, and `readFile path` is
`ConfigManager::readFileComplete` (`none` = failure). -/
structure SendEnv where
  aesKey : List Nat
  rsaEncrypt : List Nat → List Nat → List Nat
  aesEncrypt : List Nat → List Nat → List Nat
  readFile : String → Option (List Nat)

/-- How far `sendMessage` gets before (or whether) it reaches the network
exchange.  The `err...` constructors are the early `return false` paths,
each with `m_errorBuffer` set to the corresponding diagnostic;
`sendsRequest` means the 603 packet with the given content is handed to
`NetworkConnection::exchangeData`. -/
inductive SendOutcome where
  | errSelfSend
  | errUnknownUser
  | errNoPublicKey
  | errStoreKeyFailed
  | errNoContent
  | errNoSymKey
  | errFileNotFound
  | errTooBig
  | sendsRequest (contentSize : Nat) (content : List Nat)
deriving DecidableEq, Repr

/-- MessageEngine::sendMessage up to the network exchange.  Returns the
outcome together with the registry after the call (the KeySend path
installs the freshly generated symmetric key locally before
encrypting). -/
def sendMessage (env : SendEnv) (localUsername : String) (reg : List ClientInfo)
    (username : String) (mtype : Nat) (data : String) : SendOutcome × List ClientInfo :=
  if username = localUsername then (.errSelfSend, reg)
  else
    match findClientByUsername reg username with
    | none => (.errUnknownUser, reg)
    | some c =>
      if mtype = MSG_SYMMETRIC_KEY_SEND then
        if c.publicKeySet = false then (.errNoPublicKey, reg)
        else
          let s := setClientSymmetricKey reg c.id env.aesKey
          if s.1 = false then (.errStoreKeyFailed, s.2)
          else
            let enc := env.rsaEncrypt c.publicKey env.aesKey
            if 4294967295 < enc.length then (.errTooBig, s.2)
            else (.sendsRequest enc.length enc, s.2)
      else if mtype = MSG_TEXT ∨ mtype = MSG_FILE then
        if data = "" then (.errNoContent, reg)
        else if c.symmetricKeySet = false then (.errNoSymKey, reg)
        else
          match (if mtype = MSG_FILE then env.readFile data else some (bytesOfString data)) with
          | none => (.errFileNotFound, reg)
          | some plain =>
            let enc := env.aesEncrypt c.symmetricKey plain
            if 4294967295 < enc.length then (.errTooBig, reg)
            else (.sendsRequest enc.length enc, reg)
      else
        -- MSG_SYMMETRIC_KEY_REQUEST (and any other enum value): content
        -- stays null, contentSize 0, and the packet is sent as-is
        (.sendsRequest 0 [], reg)

/-! ## Registration (MessageEngine::registerClient, lines 567-618) -/

/-- What `registerClient` does first with a given username. -/
inductive RegisterFirstAction where
  | rejectedNameLength
  | proceedsToRequest
deriving DecidableEq, Repr

/-- The only validation `registerClient` performs on the username before
building the 600 request and entering `receiveUnknownPayload` (which
connects and sends) is the length check
`username.length() >= CLIENT_NAME_MAX_LENGTH` with
CLIENT_NAME_MAX_LENGTH = 255; `std::string::length()` counts bytes. -/
def registerClientFirstAction (username : String) : RegisterFirstAction :=
  if 255 ≤ username.utf8ByteSize then .rejectedNameLength else .proceedsToRequest

/-- Spec-side definition (for comparison with the source behaviour): the
specification's name rule, "all code points alphanumeric". -/
def specNameAllAlphanumeric (s : String) : Bool :=
  s.data.all fun c => c.isAlphanum

/-! ## Hex encoding and the identity store
(StringUtility.cpp lines 67-112, MessageEngine.cpp lines 182-192 and 263-301) -/

/-- One hex digit as produced by `boost::algorithm::hex`, which emits
UPPERCASE letters: value 0-9 → '0'-'9', 10-15 → 'A'-'F'. -/
def hexDigitChar (n : Nat) : Char :=
  if n < 10 then Char.ofNat (48 + n) else Char.ofNat (55 + n)

/-- Characters of `boost::algorithm::hex` over a byte list: two digits
per byte, high nibble first. -/
def hexUpperChars : List Nat → List Char
  | [] => []
  | b :: r => hexDigitChar (b / 16) :: hexDigitChar (b % 16) :: hexUpperChars r

/-- StringUtility::hex: empty input yields "", otherwise
`boost::algorithm::hex` of the bytes (uppercase digits). -/
def StringUtility_hex (bytes : List Nat) : String :=
  if bytes = [] then "" else ⟨hexUpperChars bytes⟩

/-- Spec-side definition (for comparison): the specification asks for the
identity "as 32 lowercase hex digits", i.e. letters 'a'-'f'. -/
def specHexLower (bytes : List Nat) : String :=
  ⟨(hexUpperChars bytes).map fun c => c.toLower⟩

/-- Line 2 of `my.info` as written by MessageEngine::storeClientInfo:
`StringUtility::hex(m_localUser.id.uuid, 16)` followed by a newline
(`ConfigManager::writeTextLine`). -/
def storeClientInfoLine2 (id : List Nat) : String :=
  StringUtility_hex id

/-- Value of one hex character, accepting both cases (boost unhex). -/
def hexCharVal (c : Char) : Option Nat :=
  if 48 ≤ c.toNat ∧ c.toNat ≤ 57 then some (c.toNat - 48)
  else if 65 ≤ c.toNat ∧ c.toNat ≤ 70 then some (c.toNat - 55)
  else if 97 ≤ c.toNat ∧ c.toNat ≤ 102 then some (c.toNat - 87)
  else none

/-- Core of `boost::algorithm::unhex`: pairs of hex characters to bytes;
odd length or a non-hex character throws (`none`). -/
def unhexChars : List Char → Option (List Nat)
  | [] => some []
  | [_] => none
  | a :: b :: r =>
    match hexCharVal a, hexCharVal b, unhexChars r with
    | some x, some y, some rest => some ((16 * x + y) :: rest)
    | _, _, _ => none

/-- StringUtility::unhex: catches the boost exception and returns the
empty string, here the empty byte list. -/
def StringUtility_unhex (s : String) : List Nat :=
  (unhexChars s.data).getD []

/-- C `strlen` over the decoded bytes: counts up to the first zero byte.
This is how MessageEngine::loadUserCredentials (line 185) measures the
decoded UUID. -/
def cStrLen (l : List Nat) : Nat :=
  (l.takeWhile (fun b => b != 0)).length

/-- The UUID step of MessageEngine::loadUserCredentials (lines 182-192):
decode the hex line, require `strlen(decoded) == 16`, then memcpy the
first 16 bytes.  `none` is the "Invalid UUID format" failure. -/
def loadUuidFromLine (line : String) : Option (List Nat) :=
  let data := StringUtility_unhex line
  if cStrLen data ≠ 16 then none else some (data.take 16)

/-! ## Concrete sample values used in counterexamples and witnesses -/

/-- A 16-byte identity used as the local user's identity in examples
(hex 0102...16, the identity of scenario S1). -/
def exampleIdent : List Nat := [1, 2, 3, 4, 5, 6, 7, 8, 9, 16, 17, 18, 19, 20, 21, 22]

/-- A 16-byte identity whose first byte is 0xAB (to exercise hex letters). -/
def identWithAB : List Nat := 171 :: List.replicate 15 0

/-- A 16-byte identity containing a zero byte. -/
def identWithZero : List Nat := [0, 1, 2, 3, 4, 5, 6, 7, 8, 9, 10, 11, 12, 13, 14, 15]

/-- A sample peer identity. -/
def bobIdent : List Nat := List.replicate 16 10

/-- A 16-byte identity present in no sample registry. -/
def strangerIdent : List Nat := List.replicate 16 11

/-- A registry entry for peer "bob" with no key material learned. -/
def bobPlain : ClientInfo := { id := bobIdent, username := "bob" }

/-- A registry entry for peer "bob" whose public key is present. -/
def bobWithPk : ClientInfo := { id := bobIdent, username := "bob", publicKeySet := true }

/-- A pending-message environment whose RSA decryption always yields a
17-byte plaintext (one byte longer than a symmetric key). -/
def examplePendingEnv : PendingEnv :=
  { rsaDecrypt := fun _ => some (List.replicate 17 3)
    aesDecrypt := fun _ _ => some []
    writeFileOk := true
    tempDir := ""
    timestamp := "" }

/-- A sending environment with trivial crypto placeholders. -/
def exampleSendEnv : SendEnv :=
  { aesKey := List.replicate 16 1
    rsaEncrypt := fun _ m => m
    aesEncrypt := fun _ m => m
    readFile := fun _ => none }

/-- A 271-byte users record carrying `exampleIdent` and the name "alice". -/
def exampleUsersRecord : List Nat :=
  exampleIdent ++ (bytesOfString "alice" ++ List.replicate 250 0)

/-! ## General helper lemmas -/

theorem drop_append_of_length {α : Type} (l t : List α) {n : Nat}
    (h : l.length = n) : (l ++ t).drop n = t := by
  rw [← h]
  exact List.drop_left l t

theorem take_append_of_length {α : Type} (l t : List α) {n : Nat}
    (h : l.length = n) : (l ++ t).take n = l := by
  rw [← h]
  exact List.take_left l t

theorem le32_length (n : Nat) : (le32 n).length = 4 := rfl

theorem decodeLe32_le32 (n : Nat) (h : n < 4294967296) : decodeLe32 (le32 n) = n := by
  simp [decodeLe32, le32, List.getD]
  omega

/-! ## C6 — header validation -/

/-- C6: `validateHeader` accepts a response header iff its code is not
9000, its code equals the expected code, and for the fixed-size response
codes 2100 / 2102 / 2103 the payload size equals 16 / 176 / 20
respectively; moreover a 2102 response whose payload is 160 bytes is
rejected and `requestClientPublicKey` then returns failure with the
peer registry unchanged. -/
theorem c6_theorem :
    (∀ (h : ResponseHeader) (e : Nat),
      validateHeader h e = true ↔
        (h.code ≠ 9000 ∧ h.code = e ∧
         (e = 2100 → h.payloadSize = 16) ∧
         (e = 2102 → h.payloadSize = 176) ∧
         (e = 2103 → h.payloadSize = 20))) ∧
    (∀ (localId : List Nat) (reg : List ClientInfo) (username : String)
       (r : ServerResponse),
      r.code = 2102 → r.payload.length = 160 →
      requestClientPublicKey localId reg username r = (false, reg)) := by
  constructor
  · intro h e
    unfold validateHeader
    split_ifs with h1 h2 h3 h4 h5 <;> simp_all <;> omega
  · intro localId reg username r hc hl
    unfold requestClientPublicKey receiveUnknownPayload
    have hv : validateHeader r.header 2102 = false := by
      simp [ServerResponse.header, validateHeader, hc, hl]
    rw [hv]
    cases findClientByUsername reg username <;> rfl

/-- Witness for C6: the S6 framing fault, a 2102 response of 160 payload
bytes, is rejected with the registry untouched. -/
theorem c6_witness :
    requestClientPublicKey exampleIdent [bobWithPk] "bob"
      ⟨2102, List.replicate 160 0⟩ = (false, [bobWithPk]) :=
  c6_theorem.2 exampleIdent [bobWithPk] "bob" ⟨2102, List.replicate 160 0⟩
    rfl (by decide)

/-! ## C4 — registration name validation -/

/-- C4 counterexample: "bob-1" contains a non-alphanumeric code point,
yet `registerClient` passes name validation and proceeds to build and
send the 600 request (the claimed pre-network failure does not occur). -/
theorem c4_counterexample :
    specNameAllAlphanumeric "bob-1" = false ∧
    registerClientFirstAction "bob-1" = .proceedsToRequest := by
  decide

/-- C4 amended: the only name validation in `registerClient` is the
length check; it proceeds to network I/O exactly when the name is
shorter than 255 bytes, regardless of the characters it contains. -/
theorem c4_amended (s : String) :
    registerClientFirstAction s = .proceedsToRequest ↔ s.utf8ByteSize < 255 := by
  unfold registerClientFirstAction
  split_ifs with h <;> simp <;> omega

/-! ## C3 — empty users list -/

/-- C3 counterexample: a valid 2101 response with an empty payload makes
`requestClientsList` return success with an empty registry, not the
claimed "no registered users" failure. -/
theorem c3_counterexample :
    requestClientsList exampleIdent [bobPlain] ⟨2101, []⟩ = (true, []) := by
  decide

/-- C3 amended: for every prior registry, a valid 2101 response with an
empty payload yields success and an empty registry (the "No registered
users found." message lives in the console display layer, not in
`requestClientsList`). -/
theorem c3_amended (localId : List Nat) (reg : List ClientInfo) :
    requestClientsList localId reg ⟨2101, []⟩ = (true, []) := rfl

/-! ## C9 — identity hex line in my.info -/

theorem hexUpperChars_length (l : List Nat) :
    (hexUpperChars l).length = 2 * l.length := by
  induction l with
  | nil => rfl
  | cons b r ih => simp [hexUpperChars, ih]; omega

theorem hexDigitChar_mem (n : Nat) (h : n < 16) :
    hexDigitChar n ∈ ("0123456789ABCDEF").data := by
  interval_cases n <;> decide

theorem hexUpperChars_mem (l : List Nat) (hb : ∀ b ∈ l, b < 256) :
    ∀ c ∈ hexUpperChars l, c ∈ ("0123456789ABCDEF").data := by
  induction l with
  | nil => simp [hexUpperChars]
  | cons b r ih =>
    intro c hc
    have hb0 : b < 256 := hb b (by simp)
    simp only [hexUpperChars, List.mem_cons] at hc
    rcases hc with h | h | h
    · subst h; exact hexDigitChar_mem _ (by omega)
    · subst h; exact hexDigitChar_mem _ (by omega)
    · exact ih (fun x hx => hb x (by simp [hx])) c h

/-- C9 counterexample: for an identity containing the byte 0xAB, line 2
of my.info is rendered with UPPERCASE hex letters, so it is not the
claimed lowercase rendering. -/
theorem c9_counterexample :
    storeClientInfoLine2 identWithAB = "AB000000000000000000000000000000" ∧
    specHexLower identWithAB = "ab000000000000000000000000000000" ∧
    storeClientInfoLine2 identWithAB ≠ specHexLower identWithAB := by
  decide

/-- C9 amended: line 2 of my.info is the 16-byte identity rendered as
exactly 32 UPPERCASE hexadecimal digits with no separators (boost's
`hex` emits uppercase); for the scenario-S1 identity — whose hex digits
are all decimal — the line equals "01020304050607080910111213141516" as
the spec's example states. -/
theorem c9_amended :
    storeClientInfoLine2 exampleIdent = "01020304050607080910111213141516" ∧
    ∀ id : List Nat, id.length = 16 → (∀ b ∈ id, b < 256) →
      (storeClientInfoLine2 id).length = 32 ∧
      ∀ c ∈ (storeClientInfoLine2 id).data, c ∈ ("0123456789ABCDEF").data := by
  refine ⟨by decide, ?_⟩
  intro id hlen hb
  have hne : id ≠ [] := by
    intro h
    rw [h] at hlen
    simp at hlen
  unfold storeClientInfoLine2 StringUtility_hex
  rw [if_neg hne]
  constructor
  · show (hexUpperChars id).length = 32
    rw [hexUpperChars_length, hlen]
  · exact hexUpperChars_mem id hb

/-- Witness for C9: the amended statement applied to the S1 identity. -/
theorem c9_amended_witness :
    (storeClientInfoLine2 exampleIdent).length = 32 :=
  (c9_amended.2 exampleIdent (by decide) (by decide)).1

/-! ## C10 — identity-store round trip -/

/-- C10: the identity 000102...0f is a legal 16-byte identity that
`storeClientInfo` persists as 32 hex digits, yet `loadUserCredentials`
rejects the stored line: `strlen` on the decoded bytes stops at the
leading zero byte, gives 0 ≠ 16, and the load fails with "Invalid UUID
format" — the round trip does not recover the identity. -/
theorem c10_theorem :
    identWithZero.length = 16 ∧
    storeClientInfoLine2 identWithZero = "000102030405060708090A0B0C0D0E0F" ∧
    loadUuidFromLine (storeClientInfoLine2 identWithZero) = none := by
  decide

/-! ## C5 — transport send chunking -/

theorem sendChunksF_spec (fuel : Nat) :
    ∀ bytes : List Nat, bytes.length ≤ fuel →
      sendChunksF fuel bytes =
        bytes ++ List.replicate ((bytes.length + 1023) / 1024 * 1024 - bytes.length) 0 := by
  induction fuel with
  | zero =>
    intro bytes h
    have : bytes = [] := List.length_eq_zero.mp (Nat.le_zero.mp h)
    subst this
    rfl
  | succ f ih =>
    intro bytes h
    by_cases hb : bytes = []
    · subst hb; rfl
    · rw [sendChunksF, if_neg hb,
        ih (bytes.drop 1024) (by rw [List.length_drop]; omega)]
      have hpos : 0 < bytes.length := List.length_pos.mpr hb
      by_cases hle : bytes.length ≤ 1024
      · have hdrop : bytes.drop 1024 = [] := List.drop_eq_nil_of_le (by omega)
        have htake : bytes.take 1024 = bytes := List.take_of_length_le (by omega)
        rw [hdrop, htake]
        simp only [List.nil_append, List.length_nil, List.append_assoc]
        rw [← List.replicate_add]
        congr 2
        omega
      · have hz : 1024 - bytes.length = 0 := by omega
        rw [hz]
        simp only [List.replicate_zero, List.append_nil, List.length_drop]
        rw [← List.append_assoc, List.take_append_drop]
        congr 2
        omega

/-- C5 counterexample: sending the single byte 7 puts 1024 bytes on the
wire (the byte followed by 1023 zero-padding bytes), not exactly the
input. -/
theorem c5_counterexample : sendData [7] ≠ some [7] := by
  decide

/-- C5 amended: a successful `sendData` writes the input bytes followed
by zero padding up to the next multiple of 1024: every written chunk is
exactly DEFAULT_PACKET_SIZE = 1024 bytes, so the peer receives
`ceil(n/1024) * 1024` bytes of which the first `n` are the input and the
rest are zeros. -/
theorem c5_amended (bytes : List Nat) (h : bytes ≠ []) :
    sendData bytes =
      some (bytes ++
        List.replicate ((bytes.length + 1023) / 1024 * 1024 - bytes.length) 0) := by
  unfold sendData
  rw [if_neg h, sendChunksF_spec bytes.length bytes le_rfl]

/-- Witness for C5: the amended statement at the one-byte buffer. -/
theorem c5_amended_witness :
    sendData [7] =
      some ([7] ++
        List.replicate (([7].length + 1023) / 1024 * 1024 - [7].length) 0) :=
  c5_amended [7] (by decide)

/-! ## C7 — key-presence preconditions in sendMessage -/

/-- C7 counterexample: "bob" is in the registry without a symmetric key,
yet `sendMessage(bob, Text, "")` fails with the no-content error, not
the claimed symmetric-key-missing error. -/
theorem c7_counterexample :
    sendMessage exampleSendEnv "alice" [bobPlain] "bob" MSG_TEXT "" =
      (.errNoContent, [bobPlain]) ∧
    bobPlain.symmetricKeySet = false ∧
    SendOutcome.errNoContent ≠ SendOutcome.errNoSymKey := by
  decide

/-- C7 amended: when the named peer is found and is not the local user,
(a) for Text/File with NONEMPTY data, `sendMessage` fails with the
symmetric-key-missing error (registry untouched, no request sent) iff
the peer's symmetric-key flag is false — with empty data the no-content
error fires first regardless of the flag — and (b) for KeySend it fails
with the public-key-missing error iff the peer's public-key flag is
false. -/
theorem c7_amended (env : SendEnv) (localU : String) (reg : List ClientInfo)
    (uname : String) (mtype : Nat) (data : String) (c : ClientInfo)
    (hne : uname ≠ localU) (hfind : findClientByUsername reg uname = some c) :
    (((mtype = MSG_TEXT ∨ mtype = MSG_FILE) ∧ data ≠ "") →
      (sendMessage env localU reg uname mtype data = (.errNoSymKey, reg) ↔
        c.symmetricKeySet = false)) ∧
    (mtype = MSG_SYMMETRIC_KEY_SEND →
      (sendMessage env localU reg uname mtype data = (.errNoPublicKey, reg) ↔
        c.publicKeySet = false)) := by
  unfold sendMessage
  rw [if_neg hne, hfind]
  dsimp only
  constructor
  · rintro ⟨hty, hdata⟩
    have h2 : ¬ mtype = MSG_SYMMETRIC_KEY_SEND := by
      rcases hty with h | h <;> subst h <;> decide
    rw [if_neg h2, if_pos hty, if_neg hdata]
    cases hsym : c.symmetricKeySet with
    | false => simp
    | true =>
      rw [if_neg (show ¬ (true = false) by decide)]
      constructor
      · intro hres
        exfalso
        rcases hread : (if mtype = MSG_FILE then env.readFile data
            else some (bytesOfString data)) with _ | plain <;>
          rw [hread] at hres
        · simp at hres
        · dsimp only at hres
          split at hres <;> simp at hres
      · intro hfalse
        exact absurd hfalse (by decide)
  · intro h2
    rw [if_pos h2]
    cases hpk : c.publicKeySet with
    | false => simp
    | true =>
      rw [if_neg (show ¬ (true = false) by decide)]
      constructor
      · intro hres
        exfalso
        split at hres
        · simp at hres
        · split at hres <;> simp at hres
      · intro hfalse
        exact absurd hfalse (by decide)

/-- Witness for C7: the amended statement at a concrete registry in
which bob lacks a symmetric key, for a nonempty text message. -/
theorem c7_amended_witness :
    sendMessage exampleSendEnv "alice" [bobPlain] "bob" MSG_TEXT "hi" =
      (.errNoSymKey, [bobPlain]) :=
  ((c7_amended exampleSendEnv "alice" [bobPlain] "bob" MSG_TEXT "hi" bobPlain
      (by decide) (by decide)).1 ⟨Or.inl rfl, by decide⟩).mpr rfl

/-! ## C8 — no self-filtering in the users list -/

/-- C8 counterexample: a 2101 payload containing a record whose ident
equals the local user's ident produces, after a successful
`requestClientsList`, a registry that DOES contain an entry with the
local identity. -/
theorem c8_counterexample :
    (requestClientsList exampleIdent [] ⟨2101, exampleUsersRecord⟩).2.any
      (fun c => c.id == exampleIdent) = true ∧
    (requestClientsList exampleIdent [] ⟨2101, exampleUsersRecord⟩).1 = true := by
  decide

/-- C8 amended: `requestClientsList` performs no filtering by the local
identity: whenever it succeeds, the resulting registry is exactly the
list of records parsed from the payload, whatever `m_localUser.id` is
(the local id only enters the request header), so a record bearing the
local identity is installed like any other. -/
theorem c8_amended (localId1 localId2 : List Nat) (reg : List ClientInfo)
    (r : ServerResponse) (cs : List ClientInfo) :
    requestClientsList localId1 reg r = requestClientsList localId2 reg r ∧
    (requestClientsList localId1 reg r = (true, cs) →
      parseClientsLoop r.payload = (true, cs)) := by
  refine ⟨rfl, ?_⟩
  intro h
  unfold requestClientsList at h
  cases hrecv : receiveUnknownPayload 2101 r with
  | none =>
    rw [hrecv] at h
    simp at h
  | some payload =>
    rw [hrecv] at h
    have hp : payload = r.payload := by
      unfold receiveUnknownPayload at hrecv
      split at hrecv
      · exact (Option.some.injEq _ _ ▸ hrecv).symm ▸ rfl
      · simp at hrecv
    rw [← hp]
    exact h

/-- Witness for C8: the amended statement at the payload that carries
the local identity. -/
theorem c8_amended_witness :
    parseClientsLoop exampleUsersRecord =
      (true, [{ id := exampleIdent, username := "alice" }]) :=
  (c8_amended exampleIdent bobIdent [] ⟨2101, exampleUsersRecord⟩
      [{ id := exampleIdent, username := "alice" }]).2 (by decide)

/-! ## Pending-message loop lemmas -/

theorem pendingStep_rest_length {env : PendingEnv} {reg : List ClientInfo}
    {bytes : List Nat} {x : Option MessageData × List String × List ClientInfo × List Nat}
    (h : pendingStep env reg bytes = .ok x) :
    x.2.2.2.length + 25 ≤ bytes.length := by
  unfold pendingStep at h
  split at h
  · simp at h
  · split at h
    · simp at h
    · have hlen : ¬ (bytes.length < 25 + decodeLe32 ((bytes.drop 21).take 4)) := by
        assumption
      split at h
      · simp at h
      · dsimp only at h
        repeat' split at h
        all_goals
          first
          | (simp only [Except.ok.injEq] at h; subst h;
             simp only [List.length_drop]; omega)
          | simp at h

theorem processPendingF_fuel_congr (env : PendingEnv) :
    ∀ (f g : Nat) (reg : List ClientInfo) (bytes : List Nat),
      bytes.length ≤ f → bytes.length ≤ g →
      processPendingF env f reg bytes = processPendingF env g reg bytes := by
  intro f
  induction f with
  | zero =>
    intro g reg bytes hf hg
    have : bytes = [] := List.length_eq_zero.mp (Nat.le_zero.mp hf)
    subst this
    cases g <;> rfl
  | succ f ih =>
    intro g reg bytes hf hg
    cases bytes with
    | nil => cases g <;> rfl
    | cons b bs =>
      have hg1 : ∃ g2, g = g2 + 1 := by
        refine ⟨g - 1, ?_⟩
        simp at hg
        omega
      obtain ⟨g2, rfl⟩ := hg1
      simp only [processPendingF]
      cases hstep : pendingStep env reg (b :: bs) with
      | error e => rfl
      | ok y =>
        obtain ⟨mopt, errs, reg2, rest⟩ := y
        have hr := pendingStep_rest_length hstep
        simp only [List.length_cons] at hf hg hr
        dsimp only
        rw [ih g2 reg2 rest (by omega) (by omega)]

theorem processPending_step_error {env : PendingEnv} {reg : List ClientInfo}
    {bytes : List Nat} {e : String}
    (hne : bytes ≠ []) (h : pendingStep env reg bytes = .error e) :
    processPending env reg bytes = .error e := by
  obtain ⟨b, bs, rfl⟩ : ∃ b bs, bytes = b :: bs := by
    cases bytes with
    | nil => exact absurd rfl hne
    | cons b bs => exact ⟨b, bs, rfl⟩
  unfold processPending
  simp only [List.length_cons, processPendingF, h]

theorem processPending_step_ok {env : PendingEnv} {reg : List ClientInfo}
    {bytes : List Nat} {mopt : Option MessageData} {errs : List String}
    {reg2 : List ClientInfo} {rest : List Nat}
    (hne : bytes ≠ []) (h : pendingStep env reg bytes = .ok (mopt, errs, reg2, rest)) :
    processPending env reg bytes =
      Except.map (fun y => (mopt.elim y.1 (· :: y.1), errs ++ y.2.1, y.2.2))
        (processPending env reg2 rest) := by
  obtain ⟨b, bs, rfl⟩ : ∃ b bs, bytes = b :: bs := by
    cases bytes with
    | nil => exact absurd rfl hne
    | cons b bs => exact ⟨b, bs, rfl⟩
  have hr := pendingStep_rest_length h
  simp only [List.length_cons] at hr
  unfold processPending
  simp only [List.length_cons, processPendingF, h]
  rw [processPendingF_fuel_congr env bs.length rest.length reg2 rest (by omega) le_rfl]
  cases hx : processPendingF env rest.length reg2 rest with
  | error e => rfl
  | ok z => obtain ⟨ms, errs2, reg3⟩ := z; rfl

theorem mkPendingRecord_length (senderId : List Nat) (msgId mtype : Nat)
    (content : List Nat) (h16 : senderId.length = 16) :
    (mkPendingRecord senderId msgId mtype content).length = 25 + content.length := by
  simp [mkPendingRecord, h16, le32_length]
  omega

theorem mkPendingRecord_facts (senderId : List Nat) (msgId mtype : Nat)
    (content rest : List Nat) (h16 : senderId.length = 16)
    (hm : msgId < 4294967296) (hc : content.length < 4294967296) :
    (mkPendingRecord senderId msgId mtype content ++ rest).length
        = 25 + content.length + rest.length ∧
    (mkPendingRecord senderId msgId mtype content ++ rest).take 16 = senderId ∧
    decodeLe32 (((mkPendingRecord senderId msgId mtype content ++ rest).drop 16).take 4)
        = msgId ∧
    ((mkPendingRecord senderId msgId mtype content ++ rest).drop 20).headD 0 = mtype ∧
    decodeLe32 (((mkPendingRecord senderId msgId mtype content ++ rest).drop 21).take 4)
        = content.length ∧
    ((mkPendingRecord senderId msgId mtype content ++ rest).drop 25).take content.length
        = content ∧
    (mkPendingRecord senderId msgId mtype content ++ rest).drop (25 + content.length)
        = rest := by
  have e1 : mkPendingRecord senderId msgId mtype content ++ rest
      = senderId ++ (le32 msgId ++ ([mtype] ++ (le32 content.length ++ (content ++ rest)))) := by
    simp [mkPendingRecord, List.append_assoc]
  have e2 : mkPendingRecord senderId msgId mtype content ++ rest
      = (senderId ++ le32 msgId) ++ ([mtype] ++ (le32 content.length ++ (content ++ rest))) := by
    simp [mkPendingRecord, List.append_assoc]
  have e3 : mkPendingRecord senderId msgId mtype content ++ rest
      = (senderId ++ le32 msgId ++ [mtype]) ++ (le32 content.length ++ (content ++ rest)) := by
    simp [mkPendingRecord, List.append_assoc]
  have e4 : mkPendingRecord senderId msgId mtype content ++ rest
      = (senderId ++ le32 msgId ++ [mtype] ++ le32 content.length) ++ (content ++ rest) := by
    simp [mkPendingRecord, List.append_assoc]
  refine ⟨?_, ?_, ?_, ?_, ?_, ?_, ?_⟩
  · rw [List.length_append, mkPendingRecord_length senderId msgId mtype content h16]
  · rw [e1]
    exact take_append_of_length _ _ h16
  · rw [e1, drop_append_of_length _ _ h16,
      take_append_of_length _ _ (le32_length msgId)]
    exact decodeLe32_le32 msgId hm
  · rw [e2, drop_append_of_length _ _ (by simp [h16, le32_length])]
    rfl
  · rw [e3, drop_append_of_length _ _ (by simp [h16, le32_length]),
      take_append_of_length _ _ (le32_length content.length)]
    exact decodeLe32_le32 content.length hc
  · rw [e4, drop_append_of_length _ _ (by simp [h16, le32_length])]
    exact take_append_of_length _ _ rfl
  · exact drop_append_of_length _ _
      (mkPendingRecord_length senderId msgId mtype content h16)

/-! ## C1 — unknown sender in pending messages -/

/-- C1 counterexample: a 2104 payload whose first record comes from an
identity absent from the registry makes `retrievePendingMessages` fail
as a whole with "Unknown source client", even though a second record
from a registered peer follows: no display name is synthesized and the
remaining record is not delivered. -/
theorem c1_counterexample :
    retrievePendingMessages examplePendingEnv [bobPlain]
        ⟨2104, mkPendingRecord strangerIdent 7 1 [] ++ mkPendingRecord bobIdent 8 1 []⟩ =
      .error (unknownSenderErr 7) := by
  rfl

/-- C1 amended: whenever the sender identity of the leading pending
record is not in the peer registry, `retrievePendingMessages` aborts the
whole operation with the fatal "Unknown source client" diagnostic —
whatever the record type and whatever records follow; no record of the
payload is delivered. -/
theorem c1_amended (env : PendingEnv) (reg : List ClientInfo)
    (senderId : List Nat) (msgId mtype : Nat) (content rest : List Nat)
    (h16 : senderId.length = 16) (hm : msgId < 4294967296)
    (hc : content.length < 4294967296)
    (hfind : findClientById reg senderId = none) :
    retrievePendingMessages env reg
        ⟨2104, mkPendingRecord senderId msgId mtype content ++ rest⟩ =
      .error (unknownSenderErr msgId) := by
  obtain ⟨hlen, htake, hmsg, hty, hsz, hcontent, hrest⟩ :=
    mkPendingRecord_facts senderId msgId mtype content rest h16 hm hc
  have hre : retrievePendingMessages env reg
      ⟨2104, mkPendingRecord senderId msgId mtype content ++ rest⟩ =
      processPending env reg (mkPendingRecord senderId msgId mtype content ++ rest) := rfl
  rw [hre]
  have hne : mkPendingRecord senderId msgId mtype content ++ rest ≠ [] := by
    intro h0
    rw [h0] at hlen
    simp at hlen
    omega
  refine processPending_step_error hne ?_
  unfold pendingStep
  rw [if_neg (by rw [hlen]; omega), hsz, if_neg (by rw [hlen]; omega), htake, hfind, hmsg]

/-- Witness for C1: the amended statement at a concrete text record from
an unregistered sender. -/
theorem c1_amended_witness :
    retrievePendingMessages examplePendingEnv [bobPlain]
        ⟨2104, mkPendingRecord strangerIdent 9 3 [5, 5] ++ []⟩ =
      .error (unknownSenderErr 9) :=
  c1_amended examplePendingEnv [bobPlain] strangerIdent 9 3 [5, 5] []
    (by decide) (by decide) (by decide) (by decide)

/-! ## C2 — KeySend handling in pending messages -/

/-- C2 counterexample: a pending KeySend record whose RSA decryption
yields 17 bytes (not the required 16) is NOT skipped and no error line
is appended: the call succeeds, delivers "Symmetric key received", and
installs the first 16 bytes of the oversized plaintext as bob's
symmetric key. -/
theorem c2_counterexample :
    retrievePendingMessages examplePendingEnv [bobWithPk]
        ⟨2104, mkPendingRecord bobIdent 1 2 [9, 9, 9, 9]⟩ =
      .ok ([⟨"bob", "Symmetric key received"⟩], [],
        [{ id := bobIdent, username := "bob", publicKey := [],
           symmetricKey := List.replicate 16 3, publicKeySet := true,
           symmetricKeySet := true }]) := by
  rfl

/-- C2 amended: for a pending KeySend record from a registered sender
whose public-key flag is set, `retrievePendingMessages` decrypts the
content with the local private key and unconditionally installs the
first 16 bytes of whatever the decryption returns — there is no check
that the result is exactly 16 bytes and no error line for a wrong
length; and if the decryption throws, the exception is not caught, so
the whole call aborts instead of skipping the record.  (The only
skip-with-error-line in this arm is for a sender whose public-key flag
is unset.) -/
theorem c2_amended (env : PendingEnv) (reg : List ClientInfo)
    (senderId : List Nat) (msgId : Nat) (content rest : List Nat) (src : ClientInfo)
    (h16 : senderId.length = 16) (hm : msgId < 4294967296)
    (hc : content.length < 4294967296)
    (hfind : findClientById reg senderId = some src)
    (hpk : src.publicKeySet = true) :
    (∀ d, env.rsaDecrypt content = some d →
      retrievePendingMessages env reg
          ⟨2104, mkPendingRecord senderId msgId 2 content ++ rest⟩ =
        Except.map
          (fun y => (⟨src.username, "Symmetric key received"⟩ :: y.1, y.2.1, y.2.2))
          (processPending env (setClientSymmetricKey reg senderId (d.take 16)).2 rest)) ∧
    (env.rsaDecrypt content = none →
      retrievePendingMessages env reg
          ⟨2104, mkPendingRecord senderId msgId 2 content ++ rest⟩ =
        .error rsaDecryptExc) := by
  obtain ⟨hlen, htake, hmsg, hty, hsz, hcontent, hrest⟩ :=
    mkPendingRecord_facts senderId msgId 2 content rest h16 hm hc
  have hre : retrievePendingMessages env reg
      ⟨2104, mkPendingRecord senderId msgId 2 content ++ rest⟩ =
      processPending env reg (mkPendingRecord senderId msgId 2 content ++ rest) := rfl
  have hne : mkPendingRecord senderId msgId 2 content ++ rest ≠ [] := by
    intro h0
    rw [h0] at hlen
    simp at hlen
    omega
  constructor
  · intro d hdec
    rw [hre]
    have hstep : pendingStep env reg (mkPendingRecord senderId msgId 2 content ++ rest) =
        .ok (some ⟨src.username, "Symmetric key received"⟩, [],
          (setClientSymmetricKey reg senderId (d.take 16)).2, rest) := by
      unfold pendingStep
      rw [if_neg (by rw [hlen]; omega), hsz, if_neg (by rw [hlen]; omega), htake, hfind]
      dsimp only
      rw [hty, if_neg (by decide), if_pos rfl, hpk,
        if_neg (by decide : ¬ (true = false)), hcontent, hdec]
      dsimp only
      rw [hrest]
    rw [processPending_step_ok hne hstep]
    have hfun : (fun (y : List MessageData × List String × List ClientInfo) =>
        ((some (⟨src.username, "Symmetric key received"⟩ : MessageData)).elim y.1 (· :: y.1),
          [] ++ y.2.1, y.2.2)) =
        (fun y => ((⟨src.username, "Symmetric key received"⟩ : MessageData) :: y.1,
          y.2.1, y.2.2)) := by
      funext y
      rfl
    rw [hfun]
  · intro hdec
    rw [hre]
    refine processPending_step_error hne ?_
    unfold pendingStep
    rw [if_neg (by rw [hlen]; omega), hsz, if_neg (by rw [hlen]; omega), htake, hfind]
    dsimp only
    rw [hty, if_neg (by decide), if_pos rfl, hpk,
      if_neg (by decide : ¬ (true = false)), hcontent, hdec]

/-- Witness for C2: the amended statement at the concrete 17-byte
decryption environment. -/
theorem c2_amended_witness :
    retrievePendingMessages examplePendingEnv [bobWithPk]
        ⟨2104, mkPendingRecord bobIdent 1 2 [9, 9, 9, 9] ++ []⟩ =
      Except.map
        (fun y => (⟨bobWithPk.username, "Symmetric key received"⟩ :: y.1, y.2.1, y.2.2))
        (processPending examplePendingEnv
          (setClientSymmetricKey [bobWithPk] bobIdent
            ((List.replicate 17 3).take 16)).2 []) :=
  (c2_amended examplePendingEnv [bobWithPk] bobIdent 1 [9, 9, 9, 9] [] bobWithPk
      (by decide) (by decide) (by decide) (by decide) rfl).1
    (List.replicate 17 3) rfl

end MessageU
